import Mathlib

set_option maxHeartbeats 1000000
set_option maxRecDepth 8192
set_option linter.unusedVariables false

/-! Verification of the execution-and-feedback core of the
FSE2020 multi-task fuzzing runtime.

The definitions below are a shallow embedding of the two source files:

* br_pass/afl-2.52b/llvm_mode/afl-llvm-rt.o.c  — the runtime
  (branch-distance recorder log_br8/16/32/64, log_strcmp, log_strncmp;
  single-shot value capture check_br8/16/32/64, check_strcmp,
  check_strncmp; SHM attach __afl_map_shm; fork server
  __afl_start_forkserver; persistent loop __afl_persistent_loop).
* approach_pass/llvm_mode/afl-llvm-pass.so.cc_obtain_br — the
  instrumentation pass (edge-coverage IR sequence and the
  AFL_INST_RATIO configuration check).

Machine integers are modelled as Int and Nat with explicit reduction
modulo powers of two at exactly the points where the C code narrows
or wraps. -/

/-! ## Two's-complement helpers -/

/-- Two's-complement value of an integer reduced to 32 bits: models the
wrapping of a C `int` expression (such as `op1 - op2` in log_br32, or
the cast `(int)op1` in check_br64). -/
def toSigned32 (x : Int) : Int :=
  (x + 2147483648) % 4294967296 - 2147483648

/-- Two's-complement value of an integer reduced to 64 bits: models the
wrapping of a C `long long` expression (`op1 - op2` in log_br64). -/
def toSigned64 (x : Int) : Int :=
  (x + 9223372036854775808) % 18446744073709551616 - 9223372036854775808

/-! ## Branch-distance recorder (log_br8 / log_br16 / log_br32 /
log_br64 / log_strcmp / log_strncmp)

Each function updates one byte of the feedback map (the branch state
cell for `br_id`).  We embed the per-cell action: the function of the
old byte value yielding the store performed (`none` means the C code
falls through without writing the cell). -/

/-- One polarity arm of the switch body shared by log_br8/16/32/64:
given whether the this-polarity predicate held on the computed
distance, the store performed on the old cell value (none = no store).
Mirrors the paired `if (val == 0) ... else if (val == 2|1) ...`
statements of the source. -/
def brTransition (thisPol : Bool) (val : Nat) : Option Nat :=
  if thisPol then
    if val = 0 then some 1 else if val = 2 then some 3 else none
  else
    if val = 0 then some 2 else if val = 1 then some 3 else none

/-- The store performed by the body of log_br8/16/32/64 on the branch
state cell, given the comparison `type`, the already-computed distance
`dist` and the old cell value `val`.  Follows the source switch:
types 0,1 use `dist > 0`; 2,7,11 use `dist == 0`; 3,4 use `dist >= 0`;
5,6 use `dist < 0`; 8,9 use `dist <= 0`; every other type hits the
`default:` case and stores nothing; a cell already reading 3 is
returned from immediately. -/
def logBrWrite (type : Int) (dist : Int) (val : Nat) : Option Nat :=
  if val = 3 then none
  else if type = 0 ∨ type = 1 then brTransition (decide (0 < dist)) val
  else if type = 2 ∨ type = 7 ∨ type = 11 then brTransition (decide (dist = 0)) val
  else if type = 3 ∨ type = 4 then brTransition (decide (0 ≤ dist)) val
  else if type = 5 ∨ type = 6 then brTransition (decide (dist < 0)) val
  else if type = 8 ∨ type = 9 then brTransition (decide (dist ≤ 0)) val
  else none

/-- The this-polarity predicate selected by the source switch for each
comparison type (the tie-break table), as a Boolean predicate on the
computed distance; `none` for types that hit the `default:` case. -/
def brClassify (type : Int) : Option (Int → Bool) :=
  if type = 0 ∨ type = 1 then some fun d => decide (0 < d)
  else if type = 2 ∨ type = 7 ∨ type = 11 then some fun d => decide (d = 0)
  else if type = 3 ∨ type = 4 then some fun d => decide (0 ≤ d)
  else if type = 5 ∨ type = 6 then some fun d => decide (d < 0)
  else if type = 8 ∨ type = 9 then some fun d => decide (d ≤ 0)
  else none

/-- Per-cell action of log_br8: operands are C `char` values promoted
to `int`, so `br_dist = op1 - op2` is computed exactly. -/
def log_br8 (type op1 op2 : Int) (val : Nat) : Nat :=
  (logBrWrite type (op1 - op2) val).getD val

/-- Per-cell action of log_br16: operands are C `short` values promoted
to `int`, so `br_dist = op1 - op2` is computed exactly. -/
def log_br16 (type op1 op2 : Int) (val : Nat) : Nat :=
  (logBrWrite type (op1 - op2) val).getD val

/-- Per-cell action of log_br32: `int br_dist = op1 - op2` wraps in
32-bit two's-complement arithmetic. -/
def log_br32 (type op1 op2 : Int) (val : Nat) : Nat :=
  (logBrWrite type (toSigned32 (op1 - op2)) val).getD val

/-- Per-cell action of log_br64: `long long br_dist = op1 - op2` wraps
in 64-bit two's-complement arithmetic. -/
def log_br64 (type op1 op2 : Int) (val : Nat) : Nat :=
  (logBrWrite type (toSigned64 (op1 - op2)) val).getD val

/-- The store performed by log_strcmp: `br_dist = ret` and the
equality-family transition body, with the saturation early return. -/
def strcmpWrite (ret : Int) (val : Nat) : Option Nat :=
  if val = 3 then none
  else if ret = 0 then
    if val = 0 then some 1 else if val = 2 then some 3 else none
  else
    if val = 0 then some 2 else if val = 1 then some 3 else none

/-- Per-cell action of log_strcmp (the `type` argument is unused by the
source body). -/
def log_strcmp (type ret : Int) (val : Nat) : Nat :=
  (strcmpWrite ret val).getD val

/-- The store performed by log_strncmp on the cell byte `b`: the source
masks the read byte to its low two bits (`val = val & 0x3`), returns if
that state is 3, and otherwise stores `state + (len << 2)` truncated to
a byte. -/
def strncmpWrite (len ret : Int) (b : Nat) : Option Nat :=
  if b % 4 = 3 then none
  else if ret = 0 then
    if b % 4 = 0 then some ((1 + 4 * len) % 256).toNat
    else if b % 4 = 2 then some ((3 + 4 * len) % 256).toNat
    else none
  else
    if b % 4 = 0 then some ((2 + 4 * len) % 256).toNat
    else if b % 4 = 1 then some ((3 + 4 * len) % 256).toNat
    else none

/-- Per-cell action of log_strncmp (the `type` argument is unused by
the source body). -/
def log_strncmp (type len ret : Int) (b : Nat) : Nat :=
  (strncmpWrite len ret b).getD b

/-- One call to any of the six branch-distance entry points, with the
arguments that reach the state cell. -/
inductive BrCall where
  | br8 (type op1 op2 : Int)
  | br16 (type op1 op2 : Int)
  | br32 (type op1 op2 : Int)
  | br64 (type op1 op2 : Int)
  | scmp (type ret : Int)
  | sncmp (type len ret : Int)

/-- The store a call performs on its branch state cell. -/
def brCallWrite : BrCall → Nat → Option Nat
  | .br8 t a b, v => logBrWrite t (a - b) v
  | .br16 t a b, v => logBrWrite t (a - b) v
  | .br32 t a b, v => logBrWrite t (toSigned32 (a - b)) v
  | .br64 t a b, v => logBrWrite t (toSigned64 (a - b)) v
  | .scmp _ r, v => strcmpWrite r v
  | .sncmp _ l r, v => strncmpWrite l r v

/-- The new cell byte after a call (old byte if no store happened). -/
def brCallStep (v : Nat) (c : BrCall) : Nat := (brCallWrite c v).getD v

/-- The sequence of cell bytes produced by a sequence of calls on one
branch id, starting from the given byte. -/
def brTrace (v : Nat) : List BrCall → List Nat
  | [] => [v]
  | c :: cs => v :: brTrace (brCallStep v c) cs

/-- The partial order of the spec on 2-bit states:
unseen (0) below everything, saturated (3) above everything, the two
polarities only related to themselves. -/
def stLe (a b : Nat) : Prop := a = b ∨ a = 0 ∨ b = 3

/-! ### Lemmas about the branch state machine -/

lemma brTransition_zero (b : Bool) : brTransition b 0 = some (if b then 1 else 2) := by
  cases b <;> rfl

lemma brTransition_one (b : Bool) : brTransition b 1 = if b then none else some 3 := by
  cases b <;> rfl

lemma brTransition_two (b : Bool) : brTransition b 2 = if b then some 3 else none := by
  cases b <;> rfl

lemma brTransition_other (b : Bool) (v : Nat) (h0 : v ≠ 0) (h1 : v ≠ 1) (h2 : v ≠ 2) :
    brTransition b v = none := by
  cases b <;> simp [brTransition, h0, h1, h2]

/-- The switch body equals the saturation guard followed by the
classified transition. -/
lemma logBrWrite_eq (t d : Int) (v : Nat) :
    logBrWrite t d v =
      if v = 3 then none
      else
        match brClassify t with
        | some p => brTransition (p d) v
        | none => none := by
  unfold logBrWrite brClassify
  split_ifs <;> rfl

/-- strcmpWrite is the equality-family transition. -/
lemma strcmpWrite_eq (r : Int) (v : Nat) :
    strcmpWrite r v = if v = 3 then none else brTransition (decide (r = 0)) v := by
  unfold strcmpWrite brTransition
  by_cases hr : r = 0 <;> simp [hr]

/-- The three possible effects of a polarity transition on a cell. -/
lemma brTransition_cases (b : Bool) (v : Nat) :
    brTransition b v = none
    ∨ (v = 0 ∧ (brTransition b v = some 1 ∨ brTransition b v = some 2))
    ∨ ((v = 1 ∨ v = 2) ∧ brTransition b v = some 3) := by
  unfold brTransition
  cases b <;> split_ifs <;> simp_all

/-- Any single polarity transition moves the 2-bit state upward. -/
lemma brTransition_stLe_mod (b : Bool) (v : Nat) :
    stLe (v % 4) ((brTransition b v).getD v % 4) := by
  rcases brTransition_cases b v with h | ⟨h0, h | h⟩ | ⟨hv, h⟩
  · rw [h]; exact Or.inl rfl
  · rw [h, h0]; exact Or.inr (Or.inl rfl)
  · rw [h, h0]; exact Or.inr (Or.inl rfl)
  · rw [h]; exact Or.inr (Or.inr rfl)

lemma logBrWrite_stLe_mod (t d : Int) (v : Nat) :
    stLe (v % 4) ((logBrWrite t d v).getD v % 4) := by
  rw [logBrWrite_eq]
  by_cases h3 : v = 3
  · rw [if_pos h3]; exact Or.inl rfl
  · rw [if_neg h3]
    cases brClassify t with
    | none => exact Or.inl rfl
    | some p => exact brTransition_stLe_mod (p d) v

lemma strcmpWrite_stLe_mod (r : Int) (v : Nat) :
    stLe (v % 4) ((strcmpWrite r v).getD v % 4) := by
  rw [strcmpWrite_eq]
  by_cases h3 : v = 3
  · rw [if_pos h3]; exact Or.inl rfl
  · rw [if_neg h3]; exact brTransition_stLe_mod _ v

lemma strncmpWrite_stLe_mod (l r : Int) (b : Nat) :
    stLe (b % 4) ((strncmpWrite l r b).getD b % 4) := by
  unfold strncmpWrite
  by_cases h3 : b % 4 = 3
  · rw [if_pos h3]; exact Or.inl rfl
  · rw [if_neg h3]
    by_cases hr : r = 0
    · rw [if_pos hr]
      by_cases h0 : b % 4 = 0
      · rw [if_pos h0]; exact Or.inr (Or.inl h0)
      · rw [if_neg h0]
        by_cases h2 : b % 4 = 2
        · rw [if_pos h2]
          refine Or.inr (Or.inr ?_)
          simp only [Option.getD_some]
          omega
        · rw [if_neg h2]; exact Or.inl rfl
    · rw [if_neg hr]
      by_cases h0 : b % 4 = 0
      · rw [if_pos h0]; exact Or.inr (Or.inl h0)
      · rw [if_neg h0]
        by_cases h1 : b % 4 = 1
        · rw [if_pos h1]
          refine Or.inr (Or.inr ?_)
          simp only [Option.getD_some]
          omega
        · rw [if_neg h1]; exact Or.inl rfl

/-- Every branch-distance call moves the cell's 2-bit state upward. -/
lemma brCallStep_stLe (c : BrCall) (v : Nat) :
    stLe (v % 4) (brCallStep v c % 4) := by
  cases c with
  | br8 t a b =>
      simp only [brCallStep, brCallWrite]
      exact logBrWrite_stLe_mod t (a - b) v
  | br16 t a b =>
      simp only [brCallStep, brCallWrite]
      exact logBrWrite_stLe_mod t (a - b) v
  | br32 t a b =>
      simp only [brCallStep, brCallWrite]
      exact logBrWrite_stLe_mod t (toSigned32 (a - b)) v
  | br64 t a b =>
      simp only [brCallStep, brCallWrite]
      exact logBrWrite_stLe_mod t (toSigned64 (a - b)) v
  | scmp t r =>
      simp only [brCallStep, brCallWrite]
      exact strcmpWrite_stLe_mod r v
  | sncmp t l r =>
      simp only [brCallStep, brCallWrite]
      exact strncmpWrite_stLe_mod l r v

/-- The 2-bit states along a trace form an stLe-chain. -/
lemma brTrace_chain (calls : List BrCall) :
    ∀ v, List.Chain' (fun a b => stLe (a % 4) (b % 4)) (brTrace v calls) := by
  induction calls with
  | nil => intro v; simp [brTrace]
  | cons c cs ih =>
      intro v
      unfold brTrace
      refine List.chain'_cons'.mpr ⟨?_, ih (brCallStep v c)⟩
      intro y hy
      have hhead : y = brCallStep v c := by
        cases cs <;> simp [brTrace] at hy <;> exact hy.symm
      rw [hhead]
      exact brCallStep_stLe c v

/-- Once the 2-bit state reads saturated, no call stores to the cell. -/
lemma brCallWrite_saturated (c : BrCall) (v : Nat) (h : v % 4 = 3) :
    brCallWrite c v = none := by
  have hne : v ≠ 0 ∧ v ≠ 1 ∧ v ≠ 2 := by omega
  cases c with
  | br8 t a b =>
      rw [brCallWrite, logBrWrite_eq]
      by_cases h3 : v = 3
      · simp [h3]
      · rw [if_neg h3]
        cases brClassify t with
        | none => rfl
        | some p => exact brTransition_other _ v hne.1 hne.2.1 hne.2.2
  | br16 t a b =>
      rw [brCallWrite, logBrWrite_eq]
      by_cases h3 : v = 3
      · simp [h3]
      · rw [if_neg h3]
        cases brClassify t with
        | none => rfl
        | some p => exact brTransition_other _ v hne.1 hne.2.1 hne.2.2
  | br32 t a b =>
      rw [brCallWrite, logBrWrite_eq]
      by_cases h3 : v = 3
      · simp [h3]
      · rw [if_neg h3]
        cases brClassify t with
        | none => rfl
        | some p => exact brTransition_other _ v hne.1 hne.2.1 hne.2.2
  | br64 t a b =>
      rw [brCallWrite, logBrWrite_eq]
      by_cases h3 : v = 3
      · simp [h3]
      · rw [if_neg h3]
        cases brClassify t with
        | none => rfl
        | some p => exact brTransition_other _ v hne.1 hne.2.1 hne.2.2
  | scmp t r =>
      rw [brCallWrite, strcmpWrite_eq]
      by_cases h3 : v = 3
      · simp [h3]
      · rw [if_neg h3]
        exact brTransition_other _ v hne.1 hne.2.1 hne.2.2
  | sncmp t l r =>
      rw [brCallWrite]
      unfold strncmpWrite
      simp [h]

/-- C1: for every branch id and every sequence of calls to the six
branch-distance entry points, the branch state cell (the 2-bit state of
the cell byte) moves only upward in the partial order
unseen (0) < polarity-1 (1), polarity-2 (2) < saturated (3): an unseen
cell transitions to the observed polarity, the opposite polarity of a
seen cell saturates it, the same polarity again is a no-op, and once
the state reads saturated no further store to the cell occurs. -/
theorem C1_branch_state_monotone :
    (∀ calls : List BrCall,
        List.Chain' (fun a b => stLe (a % 4) (b % 4)) (brTrace 0 calls))
    ∧ (∀ (t d : Int) (p : Int → Bool), brClassify t = some p →
        logBrWrite t d 0 = some (if p d then 1 else 2))
    ∧ (∀ (t d : Int) (p : Int → Bool), brClassify t = some p →
        (p d = true → logBrWrite t d 2 = some 3)
        ∧ (p d = false → logBrWrite t d 1 = some 3))
    ∧ (∀ (t d : Int) (p : Int → Bool), brClassify t = some p →
        (p d = true → logBrWrite t d 1 = none)
        ∧ (p d = false → logBrWrite t d 2 = none))
    ∧ (∀ (c : BrCall) (v : Nat), v % 4 = 3 → brCallWrite c v = none) := by
  refine ⟨fun calls => brTrace_chain calls 0, ?_, ?_, ?_, fun c v h => brCallWrite_saturated c v h⟩
  · intro t d p hp
    rw [logBrWrite_eq, if_neg (by omega : (0 : Nat) ≠ 3), hp]
    exact brTransition_zero (p d)
  · intro t d p hp
    constructor
    · intro hpd
      rw [logBrWrite_eq, if_neg (by omega : (2 : Nat) ≠ 3), hp]
      show brTransition (p d) 2 = some 3
      rw [brTransition_two, hpd]
      rfl
    · intro hpd
      rw [logBrWrite_eq, if_neg (by omega : (1 : Nat) ≠ 3), hp]
      show brTransition (p d) 1 = some 3
      rw [brTransition_one, hpd]
      rfl
  · intro t d p hp
    constructor
    · intro hpd
      rw [logBrWrite_eq, if_neg (by omega : (1 : Nat) ≠ 3), hp]
      show brTransition (p d) 1 = none
      rw [brTransition_one, hpd]
      rfl
    · intro hpd
      rw [logBrWrite_eq, if_neg (by omega : (2 : Nat) ≠ 3), hp]
      show brTransition (p d) 2 = none
      rw [brTransition_two, hpd]
      rfl

/-- Witness for C1 at concrete inputs. -/
theorem C1_branch_state_monotone_witness :
    logBrWrite 0 5 0 = some 1 ∧ logBrWrite 0 5 2 = some 3
    ∧ logBrWrite 0 5 1 = none ∧ brCallWrite (.br8 0 1 0) 7 = none := by
  have hcl : brClassify 0 = some fun d => decide (0 < d) := rfl
  refine ⟨?_, ?_, ?_, ?_⟩
  · have h := C1_branch_state_monotone.2.1 0 5 (fun d => decide (0 < d)) hcl
    simpa using h
  · have h := (C1_branch_state_monotone.2.2.1 0 5 (fun d => decide (0 < d)) hcl).1 (by decide)
    simpa using h
  · have h := (C1_branch_state_monotone.2.2.2.1 0 5 (fun d => decide (0 < d)) hcl).1 (by decide)
    simpa using h
  · exact C1_branch_state_monotone.2.2.2.2 (.br8 0 1 0) 7 (by decide)

/-! ## C2: order independence of saturation -/

/-- The state encoding whether each polarity has been observed. -/
def encodeSt : Bool → Bool → Nat
  | false, false => 0
  | true, false => 1
  | false, true => 2
  | true, true => 3

lemma brTransition_encode (p : Bool) (tf ff : Bool) :
    (brTransition p (encodeSt tf ff)).getD (encodeSt tf ff)
      = encodeSt (tf || p) (ff || !p) := by
  cases tf <;> cases ff <;> cases p <;> rfl

/-- One logBrWrite step on an encoded state records the polarity seen. -/
lemma logBrWrite_encode (t : Int) (p : Int → Bool) (hp : brClassify t = some p)
    (d : Int) (tf ff : Bool) :
    (logBrWrite t d (encodeSt tf ff)).getD (encodeSt tf ff)
      = encodeSt (tf || p d) (ff || !p d) := by
  rw [logBrWrite_eq]
  by_cases h3 : encodeSt tf ff = 3
  · have htf : tf = true ∧ ff = true := by
      cases tf <;> cases ff <;> simp_all [encodeSt]
    rw [if_pos h3, hp] at *
    rw [htf.1, htf.2]
    simp [encodeSt]
  · rw [if_neg h3, hp]
    exact brTransition_encode (p d) tf ff

/-- Cell value after feeding a list of operand pairs to log_br32 on one
branch id. -/
def runBr32 (t : Int) (pairs : List (Int × Int)) : Nat :=
  pairs.foldl (fun v ab => log_br32 t ab.1 ab.2 v) 0

lemma runBr32_foldl_encode (t : Int) (p : Int → Bool) (hp : brClassify t = some p)
    (pairs : List (Int × Int)) :
    ∀ tf ff : Bool,
      pairs.foldl (fun v ab => log_br32 t ab.1 ab.2 v) (encodeSt tf ff)
        = encodeSt (tf || pairs.any fun ab => p (toSigned32 (ab.1 - ab.2)))
                   (ff || pairs.any fun ab => !p (toSigned32 (ab.1 - ab.2))) := by
  induction pairs with
  | nil => intro tf ff; simp
  | cons ab rest ih =>
      intro tf ff
      have hstep : log_br32 t ab.1 ab.2 (encodeSt tf ff)
          = encodeSt (tf || p (toSigned32 (ab.1 - ab.2)))
                     (ff || !p (toSigned32 (ab.1 - ab.2))) := by
        unfold log_br32
        exact logBrWrite_encode t p hp (toSigned32 (ab.1 - ab.2)) tf ff
      rw [List.foldl_cons, hstep, ih]
      simp [List.any_cons, Bool.or_assoc]

/-- Characterization of the final cell value by the set of observed
polarities. -/
lemma runBr32_encode (t : Int) (p : Int → Bool) (hp : brClassify t = some p)
    (pairs : List (Int × Int)) :
    runBr32 t pairs
      = encodeSt (pairs.any fun ab => p (toSigned32 (ab.1 - ab.2)))
                 (pairs.any fun ab => !p (toSigned32 (ab.1 - ab.2))) := by
  have h := runBr32_foldl_encode t p hp pairs false false
  simpa [runBr32, encodeSt] using h

lemma any_congr_perm {α : Type} {l₁ l₂ : List α} (h : l₁.Perm l₂) (f : α → Bool) :
    l₁.any f = l₂.any f := by
  induction h with
  | nil => rfl
  | cons x _ ih => simp [List.any_cons, ih]
  | swap x y l => cases hf : f x <;> cases hg : f y <;> simp [List.any_cons, hf, hg]
  | trans _ _ ih1 ih2 => rw [ih1, ih2]

lemma encodeSt_eq_three (a b : Bool) : encodeSt a b = 3 ↔ a = true ∧ b = true := by
  cases a <;> cases b <;> simp [encodeSt]

/-- C2: for a fixed comparison kind (a type with a polarity predicate)
and a finite sequence of operand pairs fed to log_br32 for one branch
id starting from the unseen state, the final cell value is independent
of the order of the pairs, and it is saturated iff at least one pair
makes the kind's predicate true on the computed distance and at least
one pair makes it false. -/
theorem C2_order_independence (t : Int) (p : Int → Bool)
    (hp : brClassify t = some p)
    (pairs pairs' : List (Int × Int)) (hperm : pairs.Perm pairs') :
    runBr32 t pairs = runBr32 t pairs'
    ∧ (runBr32 t pairs = 3 ↔
        (∃ ab ∈ pairs, p (toSigned32 (ab.1 - ab.2)) = true)
        ∧ (∃ ab ∈ pairs, p (toSigned32 (ab.1 - ab.2)) = false)) := by
  constructor
  · rw [runBr32_encode t p hp pairs, runBr32_encode t p hp pairs',
      any_congr_perm hperm, any_congr_perm hperm]
  · rw [runBr32_encode t p hp pairs, encodeSt_eq_three]
    simp [List.any_eq_true, Bool.not_eq_true']

/-- Witness for C2 at concrete inputs. -/
theorem C2_order_independence_witness :
    runBr32 0 [(5, 2), (2, 5)] = runBr32 0 [(2, 5), (5, 2)]
    ∧ (runBr32 0 [(5, 2), (2, 5)] = 3 ↔
        (∃ ab ∈ [((5 : Int), (2 : Int)), (2, 5)], decide (0 < toSigned32 (ab.1 - ab.2)) = true)
        ∧ (∃ ab ∈ [((5 : Int), (2 : Int)), (2, 5)], decide (0 < toSigned32 (ab.1 - ab.2)) = false)) := by
  have h := C2_order_independence 0 (fun d => decide (0 < d)) rfl
    [(5, 2), (2, 5)] [(2, 5), (5, 2)] (List.Perm.swap _ _ _)
  exact h

/-! ## C5: distance semantics of the ordered comparisons -/

/-- C5 counterexample: for the greater-than family (type 0) on 32-bit
operands 2147483647 and -1, the exact integer distance 2147483648 is
positive, so the claim requires the unseen cell to move to the
this-polarity value 1; the code computes `int br_dist = op1 - op2`,
which wraps to -2147483648, and moves the cell to 2 instead. -/
theorem C5_counterexample :
    ((2147483647 : Int) - (-1) > 0) ∧ log_br32 0 2147483647 (-1) 0 = 2 := by
  constructor
  · decide
  · decide

/-- C5 amended: the polarity classification is determined by the
distance as the C code computes it at the subtraction's type: for the
8- and 16-bit variants the operands are promoted to `int`, so the
distance is the exact integer difference; for the 32- and 64-bit
variants the distance is the two's-complement reduction of the exact
difference to 32 or 64 bits, which agrees with the exact difference
exactly when that difference fits in the operand width. -/
theorem C5_amended_width_distance (t a b : Int) (p : Int → Bool)
    (hp : brClassify t = some p) :
    (log_br8 t a b 0 = if p (a - b) then 1 else 2)
    ∧ (log_br16 t a b 0 = if p (a - b) then 1 else 2)
    ∧ (log_br32 t a b 0 = if p (toSigned32 (a - b)) then 1 else 2)
    ∧ (log_br64 t a b 0 = if p (toSigned64 (a - b)) then 1 else 2)
    ∧ (-2147483648 ≤ a - b → a - b < 2147483648 → toSigned32 (a - b) = a - b)
    ∧ (-9223372036854775808 ≤ a - b → a - b < 9223372036854775808 →
        toSigned64 (a - b) = a - b)
    ∧ toSigned32 (a - b) % 4294967296 = (a - b) % 4294967296 := by
  have hz : ∀ d : Int, (logBrWrite t d 0).getD 0 = if p d then 1 else 2 := by
    intro d
    rw [logBrWrite_eq, if_neg (by omega : (0 : Nat) ≠ 3), hp]
    show (brTransition (p d) 0).getD 0 = if p d then 1 else 2
    rw [brTransition_zero]
    rfl
  refine ⟨hz (a - b), hz (a - b), hz (toSigned32 (a - b)), hz (toSigned64 (a - b)),
    ?_, ?_, ?_⟩
  · intro h1 h2; unfold toSigned32; omega
  · intro h1 h2; unfold toSigned64; omega
  · unfold toSigned32; omega

/-- Witness for C5's amended theorem at concrete inputs. -/
theorem C5_amended_width_distance_witness :
    log_br8 0 7 3 0 = 1 ∧ log_br32 0 7 9 0 = 2 ∧ toSigned32 (7 - 9) = 7 - 9 := by
  have h := C5_amended_width_distance 0 7 3 (fun d => decide (0 < d)) rfl
  have h2 := C5_amended_width_distance 0 7 9 (fun d => decide (0 < d)) rfl
  refine ⟨?_, ?_, h2.2.2.2.2.1 (by decide) (by decide)⟩
  · have := h.1
    simpa using this
  · have := h2.2.2.1
    rw [this]
    decide

/-! ## C3: edge-coverage recorder

The instrumentation pass (AFLCoverage::runOnModule) inserts at every
instrumented block: load __afl_prev_loc, xor with the block's cur_loc,
increment the 8-bit map byte at that index, then store cur_loc >> 1 to
__afl_prev_loc.  We embed the inserted IR sequence as a state
transformer. -/

/-- The edge recorder state: the feedback map bytes and the thread-local
previous-location register. -/
structure EdgeState where
  map : Nat → Nat
  prevLoc : Nat

/-- One execution of the pass-inserted edge instrumentation for a block
with location `cur`. -/
def record_edge (cur : Nat) (s : EdgeState) : EdgeState :=
  { map := fun i => if i = Nat.xor s.prevLoc cur then (s.map i + 1) % 256 else s.map i
    prevLoc := cur / 2 }

/-- C3: one record_edge call with current location c and
previous-location register p increments exactly the map byte at index
c XOR p by 1 modulo 256, sets the register to c >> 1, and changes no
other map entry. -/
theorem C3_record_edge (c : Nat) (s : EdgeState) :
    (record_edge c s).map (Nat.xor c s.prevLoc) = (s.map (Nat.xor c s.prevLoc) + 1) % 256
    ∧ (∀ i, i ≠ Nat.xor c s.prevLoc → (record_edge c s).map i = s.map i)
    ∧ (record_edge c s).prevLoc = c / 2 := by
  have hx : Nat.xor c s.prevLoc = Nat.xor s.prevLoc c := Nat.xor_comm c s.prevLoc
  refine ⟨?_, ?_, rfl⟩
  · unfold record_edge
    simp [hx]
  · intro i hi
    unfold record_edge
    have hne : i ≠ Nat.xor s.prevLoc c := hx ▸ hi
    simp [hne]

/-- A concrete edge recorder state. -/
def edgeSt0 : EdgeState := ⟨fun _ => 0, 3⟩

/-- Witness for C3 at concrete inputs. -/
theorem C3_record_edge_witness :
    (record_edge 6 edgeSt0).map 9 = edgeSt0.map 9 := by
  exact (C3_record_edge 6 edgeSt0).2.1 9 (by decide)

/-! ## C4: single-shot value capture (check_br8/16/32/64, check_strcmp,
check_strncmp)

The capture slot is the first four `int` fields of the feedback map:
`((int*)__afl_area_ptr)[0..3]`.  Each check function compares `br_id`
against slot 0; on mismatch it returns with the map untouched; on match
it stores the operands (cast to `int`) into slots 1 and 2, the sentinel
12 into slot 3, and calls exit(0). -/

/-- The four int fields of the capture slot. -/
structure CaptureSlot where
  target : Int
  opA : Int
  opB : Int
  sentinel : Int
deriving DecidableEq

/-- Result of a check call: an ordinary return with the slot unchanged,
or process termination with the given exit code and final slot. -/
inductive CapResult where
  | ret (s : CaptureSlot)
  | exited (code : Nat) (s : CaptureSlot)
deriving DecidableEq

/-- check_br8: operands are `char`, cast `(int)op1` is exact. -/
def check_br8 (br_id : Int) (op1 op2 : Int) (s : CaptureSlot) : CapResult :=
  if br_id = s.target then
    .exited 0 { s with opA := op1, opB := op2, sentinel := 12 }
  else .ret s

/-- check_br16: operands are `short`, cast `(int)op1` is exact. -/
def check_br16 (br_id : Int) (op1 op2 : Int) (s : CaptureSlot) : CapResult :=
  if br_id = s.target then
    .exited 0 { s with opA := op1, opB := op2, sentinel := 12 }
  else .ret s

/-- check_br32: operands are already `int`. -/
def check_br32 (br_id : Int) (op1 op2 : Int) (s : CaptureSlot) : CapResult :=
  if br_id = s.target then
    .exited 0 { s with opA := op1, opB := op2, sentinel := 12 }
  else .ret s

/-- check_br64: operands are `long long`; the stores are
`((int*)p)[1] = (int)op1` and `[2] = (int)op2`, truncating to 32
bits. -/
def check_br64 (br_id : Int) (op1 op2 : Int) (s : CaptureSlot) : CapResult :=
  if br_id = s.target then
    .exited 0 { s with opA := toSigned32 op1, opB := toSigned32 op2, sentinel := 12 }
  else .ret s

/-- check_strcmp: the operands are C strings (modelled as lists of
character values, empty list meaning the string starts with its
terminator); the stores are `(int)(op1[0])` and `(int)(op2[0])`. -/
def check_strcmp (br_id type : Int) (op1 op2 : List Int) (ret : Int)
    (s : CaptureSlot) : CapResult :=
  if br_id = s.target then
    .exited 0 { s with opA := op1.headI, opB := op2.headI, sentinel := 12 }
  else .ret s

/-- check_strncmp: identical slot behaviour to check_strcmp. -/
def check_strncmp (br_id type : Int) (op1 op2 : List Int) (len ret : Int)
    (s : CaptureSlot) : CapResult :=
  if br_id = s.target then
    .exited 0 { s with opA := op1.headI, opB := op2.headI, sentinel := 12 }
  else .ret s

/-- A concrete capture slot selecting target branch id 1. -/
def capSlot0 : CaptureSlot := ⟨1, 0, 0, 0⟩

/-- C4 counterexample: check_br64 with matching branch id 1 and operand
pair (4294967296, 5) terminates, but the value written into the capture
slot for operand_a is 0, not the observed operand value 4294967296: the
store truncates the 64-bit operand to a 32-bit int, so the slot does
not hold the two concrete operand values as the claim states. -/
theorem C4_counterexample :
    check_br64 1 4294967296 5 capSlot0
      = .exited 0 { target := 1, opA := 0, opB := 5, sentinel := 12 }
    ∧ (0 : Int) ≠ 4294967296 := by
  constructor
  · decide
  · decide

/-- C4 amended: on a branch id mismatching the slot's target, every
check function returns immediately with the slot unchanged; on a match,
the operands converted to the slot's `int` width (exact for the 8-, 16-
and 32-bit variants, truncated to 32 bits for the 64-bit variant, and
the first character of each string for the string variants) and the
fixed sentinel 12 are written into the slot and the process terminates
unconditionally with exit code 0. -/
theorem C4_amended_capture (br_id : Int) (s : CaptureSlot) :
    (∀ a b : Int, br_id ≠ s.target → check_br8 br_id a b s = .ret s)
    ∧ (∀ a b : Int, br_id ≠ s.target → check_br16 br_id a b s = .ret s)
    ∧ (∀ a b : Int, br_id ≠ s.target → check_br32 br_id a b s = .ret s)
    ∧ (∀ a b : Int, br_id ≠ s.target → check_br64 br_id a b s = .ret s)
    ∧ (∀ (t r : Int) (x y : List Int), br_id ≠ s.target →
        check_strcmp br_id t x y r s = .ret s)
    ∧ (∀ (t l r : Int) (x y : List Int), br_id ≠ s.target →
        check_strncmp br_id t x y l r s = .ret s)
    ∧ (∀ a b : Int, br_id = s.target →
        check_br8 br_id a b s = .exited 0 { s with opA := a, opB := b, sentinel := 12 })
    ∧ (∀ a b : Int, br_id = s.target →
        check_br16 br_id a b s = .exited 0 { s with opA := a, opB := b, sentinel := 12 })
    ∧ (∀ a b : Int, br_id = s.target →
        check_br32 br_id a b s = .exited 0 { s with opA := a, opB := b, sentinel := 12 })
    ∧ (∀ a b : Int, br_id = s.target →
        check_br64 br_id a b s
          = .exited 0 { s with opA := toSigned32 a, opB := toSigned32 b, sentinel := 12 })
    ∧ (∀ a : Int, -2147483648 ≤ a → a < 2147483648 → toSigned32 a = a)
    ∧ (∀ (t r : Int) (x y : List Int), br_id = s.target →
        check_strcmp br_id t x y r s
          = .exited 0 { s with opA := x.headI, opB := y.headI, sentinel := 12 })
    ∧ (∀ (t l r : Int) (x y : List Int), br_id = s.target →
        check_strncmp br_id t x y l r s
          = .exited 0 { s with opA := x.headI, opB := y.headI, sentinel := 12 }) := by
  refine ⟨?_, ?_, ?_, ?_, ?_, ?_, ?_, ?_, ?_, ?_, ?_, ?_, ?_⟩
  · intro a b h; unfold check_br8; rw [if_neg h]
  · intro a b h; unfold check_br16; rw [if_neg h]
  · intro a b h; unfold check_br32; rw [if_neg h]
  · intro a b h; unfold check_br64; rw [if_neg h]
  · intro t r x y h; unfold check_strcmp; rw [if_neg h]
  · intro t l r x y h; unfold check_strncmp; rw [if_neg h]
  · intro a b h; unfold check_br8; rw [if_pos h]
  · intro a b h; unfold check_br16; rw [if_pos h]
  · intro a b h; unfold check_br32; rw [if_pos h]
  · intro a b h; unfold check_br64; rw [if_pos h]
  · intro a h1 h2; unfold toSigned32; omega
  · intro t r x y h; unfold check_strcmp; rw [if_pos h]
  · intro t l r x y h; unfold check_strncmp; rw [if_pos h]

/-- Witness for C4's amended theorem at concrete inputs. -/
theorem C4_amended_capture_witness :
    check_br8 2 7 9 capSlot0 = .ret capSlot0
    ∧ check_br32 1 7 9 capSlot0 = .exited 0 ⟨1, 7, 9, 12⟩
    ∧ check_strcmp 1 32 [104, 105] [104] 0 capSlot0 = .exited 0 ⟨1, 104, 104, 12⟩ := by
  refine ⟨(C4_amended_capture 2 capSlot0).1 7 9 (by decide), ?_, ?_⟩
  · have h := (C4_amended_capture 1 capSlot0).2.2.2.2.2.2.2.2.1 7 9 rfl
    simpa [capSlot0] using h
  · have h := (C4_amended_capture 1 capSlot0).2.2.2.2.2.2.2.2.2.2.2.1
      32 0 [104, 105] [104] rfl
    simpa [capSlot0] using h

/-! ## C6: fork server (__afl_start_forkserver)

The syscall results consumed by one iteration of the forkserver loop
are collected in FsRound; the loop body is a function from the current
supervisor state and a round to either a next state or a final
outcome. -/

/-- Environment results consumed by one loop iteration: the request
read, the value read into was_killed, the race-handling waitpid result,
the fork result, the pid write result, the main waitpid result and
status, and the status write result. -/
structure FsRound where
  readRes : Int
  wasKilled : Nat
  reapRes : Int
  forkRes : Int
  pidWriteRes : Int
  waitRes : Int
  waitStatus : Nat
  statusWriteRes : Int
deriving DecidableEq

/-- Supervisor state across loop iterations: whether the previous child
is alive but stopped, and its pid. -/
structure FsState where
  childStopped : Bool
  childPid : Int
deriving DecidableEq

/-- Final outcome of the forkserver: disengaged (initial handshake
write failed, process continues unsupervised), child return (the forked
child resumes target code), process termination, or still looping after
the supplied rounds. -/
inductive FsOutcome where
  | disengaged
  | childReturn
  | exited (code : Nat)
  | looping (st : FsState)
deriving DecidableEq

/-- WIFSTOPPED on a raw wait status word (glibc encoding:
low byte 0x7f). -/
def wifstopped (status : Nat) : Bool := status % 256 = 127

/-- Parent-side tail of one iteration after a child pid is known: write
the pid, wait for the child, record whether it stopped, relay the
status. -/
def forkParentTail (r : FsRound) (pid : Int) : FsState ⊕ FsOutcome :=
  if r.pidWriteRes ≠ 4 then .inr (.exited 1)
  else if r.waitRes < 0 then .inr (.exited 1)
  else if r.statusWriteRes ≠ 4 then .inr (.exited 1)
  else .inl ⟨wifstopped r.waitStatus, pid⟩

/-- The spawn-or-resume part of one iteration: `stopped` is the value
of child_stopped after the race handling.  If the child is stopped it
is resumed with SIGCONT (no fork); otherwise fork, with the child
branch closing the descriptors and returning to target code. -/
def forkSpawn (st : FsState) (r : FsRound) (stopped : Bool) : FsState ⊕ FsOutcome :=
  if stopped then forkParentTail r st.childPid
  else if r.forkRes < 0 then .inr (.exited 1)
  else if r.forkRes = 0 then .inr .childReturn
  else forkParentTail r r.forkRes

/-- One iteration of the forkserver loop. -/
def forkRound (st : FsState) (r : FsRound) : FsState ⊕ FsOutcome :=
  if r.readRes ≠ 4 then .inr (.exited 1)
  else if st.childStopped ∧ r.wasKilled ≠ 0 then
    if r.reapRes < 0 then .inr (.exited 1)
    else forkSpawn st r false
  else forkSpawn st r st.childStopped

/-- The forkserver loop over a list of environment rounds. -/
def fsLoop : FsState → List FsRound → FsOutcome
  | st, [] => .looping st
  | st, r :: rs =>
    match forkRound st r with
    | .inl st' => fsLoop st' rs
    | .inr o => o

/-- Initial supervisor state: no stopped child. -/
def fsInit : FsState := ⟨false, 0⟩

/-- __afl_start_forkserver: handshake write, then the request loop. -/
def __afl_start_forkserver (handshakeRes : Int) (rounds : List FsRound) : FsOutcome :=
  if handshakeRes ≠ 4 then .disengaged
  else fsLoop fsInit rounds

/-- C6: failure of the initial handshake write is non-fatal — the
supervisor disengages and the process continues unsupervised; every
later protocol failure (short request read, failed race-handling wait,
fork failure, short pid write, failed wait, short status write)
terminates the process immediately with exit code 1, ignoring any
remaining controller requests. -/
theorem C6_forkserver_error_handling :
    (∀ (h : Int) (rounds : List FsRound), h ≠ 4 →
        __afl_start_forkserver h rounds = .disengaged)
    ∧ (∀ st r, r.readRes ≠ 4 → forkRound st r = .inr (.exited 1))
    ∧ (∀ st r, r.readRes = 4 → st.childStopped = true → r.wasKilled ≠ 0 →
        r.reapRes < 0 → forkRound st r = .inr (.exited 1))
    ∧ (∀ st r, r.readRes = 4 → st.childStopped = false → r.forkRes < 0 →
        forkRound st r = .inr (.exited 1))
    ∧ (∀ st r, r.readRes = 4 → st.childStopped = false → 0 < r.forkRes →
        r.pidWriteRes ≠ 4 → forkRound st r = .inr (.exited 1))
    ∧ (∀ st r, r.readRes = 4 → st.childStopped = false → 0 < r.forkRes →
        r.pidWriteRes = 4 → r.waitRes < 0 → forkRound st r = .inr (.exited 1))
    ∧ (∀ st r, r.readRes = 4 → st.childStopped = false → 0 < r.forkRes →
        r.pidWriteRes = 4 → 0 ≤ r.waitRes → r.statusWriteRes ≠ 4 →
        forkRound st r = .inr (.exited 1))
    ∧ (∀ st r rs, forkRound st r = .inr (.exited 1) →
        fsLoop st (r :: rs) = .exited 1) := by
  refine ⟨?_, ?_, ?_, ?_, ?_, ?_, ?_, ?_⟩
  · intro h rounds hh
    unfold __afl_start_forkserver
    rw [if_pos hh]
  · intro st r hr
    unfold forkRound
    rw [if_pos hr]
  · intro st r hr hcs hk hw
    unfold forkRound
    rw [if_neg (by omega : ¬r.readRes ≠ 4), if_pos ⟨hcs, hk⟩, if_pos hw]
  · intro st r hr hcs hf
    unfold forkRound forkSpawn
    rw [if_neg (by omega : ¬r.readRes ≠ 4),
      if_neg (by simp [hcs] : ¬(st.childStopped = true ∧ r.wasKilled ≠ 0)), hcs]
    rw [if_neg (by simp : ¬false = true), if_pos hf]
  · intro st r hr hcs hf hp
    unfold forkRound forkSpawn forkParentTail
    rw [if_neg (by omega : ¬r.readRes ≠ 4),
      if_neg (by simp [hcs] : ¬(st.childStopped = true ∧ r.wasKilled ≠ 0)), hcs]
    rw [if_neg (by simp : ¬false = true), if_neg (by omega : ¬r.forkRes < 0),
      if_neg (by omega : ¬r.forkRes = 0), if_pos hp]
  · intro st r hr hcs hf hp hw
    unfold forkRound forkSpawn forkParentTail
    rw [if_neg (by omega : ¬r.readRes ≠ 4),
      if_neg (by simp [hcs] : ¬(st.childStopped = true ∧ r.wasKilled ≠ 0)), hcs]
    rw [if_neg (by simp : ¬false = true), if_neg (by omega : ¬r.forkRes < 0),
      if_neg (by omega : ¬r.forkRes = 0), if_neg (by omega : ¬r.pidWriteRes ≠ 4),
      if_pos hw]
  · intro st r hr hcs hf hp hw hs
    unfold forkRound forkSpawn forkParentTail
    rw [if_neg (by omega : ¬r.readRes ≠ 4),
      if_neg (by simp [hcs] : ¬(st.childStopped = true ∧ r.wasKilled ≠ 0)), hcs]
    rw [if_neg (by simp : ¬false = true), if_neg (by omega : ¬r.forkRes < 0),
      if_neg (by omega : ¬r.forkRes = 0), if_neg (by omega : ¬r.pidWriteRes ≠ 4),
      if_neg (by omega : ¬r.waitRes < 0), if_pos hs]
  · intro st r rs hfr
    unfold fsLoop
    rw [hfr]

/-- A concrete round in which the request read returns short. -/
def fsRoundBadRead : FsRound := ⟨0, 0, 0, 0, 0, 0, 0, 0⟩

/-- A concrete round in which everything succeeds but the status write
is short. -/
def fsRoundBadStatusWrite : FsRound := ⟨4, 0, 0, 7, 4, 7, 0, 0⟩

/-- Witness for C6 at concrete inputs. -/
theorem C6_forkserver_error_handling_witness :
    __afl_start_forkserver 0 [] = .disengaged
    ∧ forkRound fsInit fsRoundBadRead = .inr (.exited 1)
    ∧ forkRound fsInit fsRoundBadStatusWrite = .inr (.exited 1)
    ∧ fsLoop fsInit [fsRoundBadRead, fsRoundBadStatusWrite] = .exited 1 := by
  have h1 := C6_forkserver_error_handling.1 0 [] (by decide)
  have h2 := C6_forkserver_error_handling.2.1 fsInit fsRoundBadRead (by decide)
  have h3 := C6_forkserver_error_handling.2.2.2.2.2.2.1 fsInit fsRoundBadStatusWrite
    (by decide) (by decide) (by decide) (by decide) (by decide) (by decide)
  have h4 := C6_forkserver_error_handling.2.2.2.2.2.2.2 fsInit fsRoundBadRead
    [fsRoundBadStatusWrite] h2
  exact ⟨h1, h2, h3, h4⟩

/-! ## C7: persistent-loop helper (__afl_persistent_loop) -/

/-- 2^32, the modulus of the u32 cycle counter. -/
def U32MOD : Nat := 4294967296

/-- State read and written by __afl_persistent_loop: the static
first_pass and cycle_cnt variables, whether __afl_area_ptr still points
at the shared region, the active region's byte 0 (the mark byte), the
private fallback region's byte 0, and the thread-local
__afl_prev_loc. -/
structure PLState where
  firstPass : Bool
  cycleCnt : Nat
  shared : Bool
  mark : Nat
  initMark : Nat
  prevLoc : Nat
deriving DecidableEq

/-- Result of one __afl_persistent_loop call: the int return value as a
Bool, the new state, and whether the call executed the
memset(__afl_area_ptr, 0, MAP_SIZE) and the raise(SIGSTOP). -/
structure PLResult where
  ret : Bool
  st : PLState
  didMemset : Bool
  didRaise : Bool
deriving DecidableEq

/-- One call to __afl_persistent_loop with iteration budget maxCnt. -/
def __afl_persistent_loop (persistent : Bool) (maxCnt : Nat) (st : PLState) : PLResult :=
  if st.firstPass then
    { ret := true
      st := if persistent then
              { st with firstPass := false, cycleCnt := maxCnt % U32MOD
                        mark := 1, prevLoc := 0 }
            else
              { st with firstPass := false, cycleCnt := maxCnt % U32MOD }
      didMemset := persistent
      didRaise := false }
  else if persistent then
    if (st.cycleCnt + (U32MOD - 1)) % U32MOD ≠ 0 then
      { ret := true
        st := { st with cycleCnt := (st.cycleCnt + (U32MOD - 1)) % U32MOD
                        mark := 1, prevLoc := 0 }
        didMemset := false
        didRaise := true }
    else
      { ret := false
        st := { st with cycleCnt := 0, shared := false, mark := st.initMark }
        didMemset := false
        didRaise := false }
  else
    { ret := false, st := st, didMemset := false, didRaise := false }

/-- The result of the (n+1)-th call to __afl_persistent_loop, all calls
made with the same budget. -/
def plRun (persistent : Bool) (maxCnt : Nat) (st : PLState) : Nat → PLResult
  | 0 => __afl_persistent_loop persistent maxCnt st
  | n + 1 => __afl_persistent_loop persistent maxCnt (plRun persistent maxCnt st n).st

/-- In persistent mode with budget k, the first k calls return true and
leave the state with mark byte 1 and cycleCnt k - n. -/
lemma plRun_persistent_true (k : Nat) (st : PLState)
    (hfp : st.firstPass = true) (hk : k < U32MOD) :
    ∀ n, n < k →
      (plRun true k st n).ret = true
      ∧ (plRun true k st n).st
          = ⟨false, k - n, st.shared, 1, st.initMark, 0⟩ := by
  intro n
  induction n with
  | zero =>
      intro hn
      unfold plRun __afl_persistent_loop
      rw [hfp]
      have hmod : k % U32MOD = k := Nat.mod_eq_of_lt hk
      simp [hmod]
  | succ n ih =>
      intro hn
      have hprev := ih (by omega)
      have hcc : ((k - n) + (U32MOD - 1)) % U32MOD = k - (n + 1) := by
        have h2 : (k - n) + (U32MOD - 1) = (k - (n + 1)) + U32MOD := by omega
        rw [h2, Nat.add_mod_right]
        exact Nat.mod_eq_of_lt (by omega)
      have hne2 : k - (n + 1) ≠ 0 := by omega
      unfold plRun
      rw [hprev.2]
      simp [__afl_persistent_loop, hcc, hne2]

/-- In non-persistent mode the state after any number of calls is the
initial state with first_pass cleared and cycle_cnt recorded. -/
lemma plRun_nonpersistent (k : Nat) (st : PLState) (hfp : st.firstPass = true) :
    ∀ n, (plRun false k st n).st
        = { st with firstPass := false, cycleCnt := k % U32MOD }
      ∧ (plRun false k st n).ret = decide (n = 0) := by
  intro n
  induction n with
  | zero =>
      unfold plRun __afl_persistent_loop
      rw [hfp]
      simp
  | succ n ih =>
      unfold plRun
      rw [ih.1]
      unfold __afl_persistent_loop
      simp

/-- C7: in persistent mode, calling the helper with budget k >= 1 on
its first call yields true on exactly the first k calls and false on
the (k+1)-th, with the active map's mark byte non-zero immediately
after every true-returning call; in non-persistent mode the helper
returns true exactly once, on the first call. -/
theorem C7_persistent_loop (k : Nat) (st : PLState)
    (hfp : st.firstPass = true) (hk1 : 1 ≤ k) (hk : k < U32MOD) :
    (∀ n, n < k →
        (plRun true k st n).ret = true ∧ (plRun true k st n).st.mark ≠ 0)
    ∧ (plRun true k st k).ret = false
    ∧ (∀ (k' : Nat) (st' : PLState), st'.firstPass = true →
        (plRun false k' st' 0).ret = true
        ∧ ∀ n, 1 ≤ n → (plRun false k' st' n).ret = false) := by
  refine ⟨?_, ?_, ?_⟩
  · intro n hn
    have h := plRun_persistent_true k st hfp hk n hn
    refine ⟨h.1, ?_⟩
    rw [h.2]
    simp
  · obtain ⟨m, rfl⟩ : ∃ m, k = m + 1 := ⟨k - 1, by omega⟩
    have hprev := plRun_persistent_true (m + 1) st hfp hk m (by omega)
    unfold plRun
    rw [hprev.2]
    have hcc0 : (1 + (U32MOD - 1)) % U32MOD = 0 := by
      have h2 : 1 + (U32MOD - 1) = U32MOD := by omega
      rw [h2, Nat.mod_self]
    simp [__afl_persistent_loop, hcc0]
  · intro k' st' hfp'
    constructor
    · have h := (plRun_nonpersistent k' st' hfp' 0).2
      simpa using h
    · intro n hn
      have h := (plRun_nonpersistent k' st' hfp' n).2
      rw [h]
      simp [show n ≠ 0 from by omega]

/-- A concrete persistent-loop starting state. -/
def plSt0 : PLState := ⟨true, 0, true, 1, 0, 5⟩

/-- Witness for C7 at concrete inputs: budget 2, persistent and
non-persistent. -/
theorem C7_persistent_loop_witness :
    (plRun true 2 plSt0 0).ret = true ∧ (plRun true 2 plSt0 1).ret = true
    ∧ (plRun true 2 plSt0 2).ret = false
    ∧ (plRun false 7 plSt0 0).ret = true ∧ (plRun false 7 plSt0 3).ret = false := by
  have h := C7_persistent_loop 2 plSt0 rfl (by omega) (by norm_num [U32MOD])
  exact ⟨(h.1 0 (by omega)).1, (h.1 1 (by omega)).1, h.2.1,
    (h.2.2 7 plSt0 rfl).1, (h.2.2 7 plSt0 rfl).2 3 (by omega)⟩

/-! ## C8: SHM attach (__afl_map_shm) -/

/-- Outcome of __afl_map_shm: immediate termination on a failed shmat,
the shared region active with the written byte 0 value, or the private
fallback region left active and untouched. -/
inductive MapShmOutcome where
  | exited (code : Nat)
  | sharedAttached (byte0 : Nat)
  | fallbackActive
deriving DecidableEq

/-- __afl_map_shm: `idStr` is the environment handle (None when
SHM_ENV_VAR is unset), `shmatFails` whether shmat returns (void*)-1. -/
def __afl_map_shm (idStr : Option Int) (shmatFails : Bool) : MapShmOutcome :=
  match idStr with
  | some _ => if shmatFails then .exited 1 else .sharedAttached 1
  | none => .fallbackActive

/-- C8: with a handle present, attach failure terminates the process
immediately with exit code 1; attach success makes the shared region
the active destination with byte 0 set to the non-zero value 1 before
returning; with no handle, the private fallback buffer stays active and
the map is not written. -/
theorem C8_map_shm :
    (∀ id : Int, __afl_map_shm (some id) true = .exited 1)
    ∧ (∀ id : Int, __afl_map_shm (some id) false = .sharedAttached 1 ∧ (1 : Nat) ≠ 0)
    ∧ (∀ f : Bool, __afl_map_shm none f = .fallbackActive) := by
  exact ⟨fun id => rfl, fun id => ⟨rfl, by omega⟩, fun f => rfl⟩

/-! ## C9: instrumentation-density configuration check

The AFLCoverage pass reads AFL_INST_RATIO with sscanf("%u"); a parse
failure, a zero value or a value above 100 raises FATAL (a descriptive
diagnostic and process abort) at instrumentation time.  The runtime
trace-pc-guard initializer performs the same validation with atoi and
abort(); it is compiled in but non-operational in the plugin-backed
LLVM mode this repository uses.  Parsing is abstracted: None = variable
unset; Some None = sscanf matched nothing; Some (Some v) = the parsed
u32 value. -/

/-- Diagnostic issued by the pass for a bad ratio. -/
def passRatioMsg : String := "Bad value of AFL_INST_RATIO (must be between 1 and 100)"

/-- The pass's decision on the instrumentation density. -/
def passRatioCheck (env : Option (Option Nat)) : Except String Nat :=
  match env with
  | none => .ok 100
  | some none => .error passRatioMsg
  | some (some v) => if v = 0 ∨ 100 < v then .error passRatioMsg else .ok v

/-- Diagnostic issued by __sanitizer_cov_trace_pc_guard_init. -/
def guardRatioMsg : String := "[-] ERROR: Invalid AFL_INST_RATIO (must be 1-100).\n"

/-- The validation in __sanitizer_cov_trace_pc_guard_init: default 100,
atoi of the variable when set, abort when zero or above 100. -/
def guardRatioCheck (env : Option Nat) : Except String Nat :=
  match env with
  | none => if (100 : Nat) = 0 ∨ 100 < (100 : Nat) then .error guardRatioMsg else .ok 100
  | some v => if v = 0 ∨ 100 < v then .error guardRatioMsg else .ok v

/-- C9: a density value outside 1-100 — including 0 and strings sscanf
cannot parse — is rejected fatally with the descriptive diagnostic by
the instrumentation pass (and likewise by the runtime guard
initializer, which is non-operational in plugin mode), and an accepted
run always uses the exact parsed value, never a clamped one. -/
theorem C9_inst_density_fatal :
    (∀ v : Nat, v = 0 ∨ 100 < v → passRatioCheck (some (some v)) = .error passRatioMsg)
    ∧ passRatioCheck (some none) = .error passRatioMsg
    ∧ (∀ v r : Nat, passRatioCheck (some (some v)) = .ok r →
        r = v ∧ 1 ≤ r ∧ r ≤ 100)
    ∧ passRatioCheck none = .ok 100
    ∧ (∀ v : Nat, v = 0 ∨ 100 < v → guardRatioCheck (some v) = .error guardRatioMsg)
    ∧ (∀ v r : Nat, guardRatioCheck (some v) = .ok r → r = v ∧ 1 ≤ r ∧ r ≤ 100)
    ∧ passRatioMsg ≠ "" := by
  refine ⟨?_, rfl, ?_, rfl, ?_, ?_, by decide⟩
  · intro v hv
    show (if v = 0 ∨ 100 < v then (Except.error passRatioMsg : Except String Nat)
      else .ok v) = .error passRatioMsg
    rw [if_pos hv]
  · intro v r h
    replace h : (if v = 0 ∨ 100 < v then (Except.error passRatioMsg : Except String Nat)
      else .ok v) = .ok r := h
    by_cases hv : v = 0 ∨ 100 < v
    · rw [if_pos hv] at h; cases h
    · rw [if_neg hv] at h
      cases h
      omega
  · intro v hv
    show (if v = 0 ∨ 100 < v then (Except.error guardRatioMsg : Except String Nat)
      else .ok v) = .error guardRatioMsg
    rw [if_pos hv]
  · intro v r h
    replace h : (if v = 0 ∨ 100 < v then (Except.error guardRatioMsg : Except String Nat)
      else .ok v) = .ok r := h
    by_cases hv : v = 0 ∨ 100 < v
    · rw [if_pos hv] at h; cases h
    · rw [if_neg hv] at h
      cases h
      omega

/-- Witness for C9 at concrete inputs. -/
theorem C9_inst_density_fatal_witness :
    passRatioCheck (some (some 0)) = .error passRatioMsg
    ∧ passRatioCheck (some (some 101)) = .error passRatioMsg
    ∧ (50 : Nat) = 50 ∧ 1 ≤ (50 : Nat) ∧ (50 : Nat) ≤ 100
    ∧ guardRatioCheck (some 0) = .error guardRatioMsg := by
  have h1 := C9_inst_density_fatal.1 0 (by omega)
  have h2 := C9_inst_density_fatal.1 101 (by omega)
  have h3 := C9_inst_density_fatal.2.2.1 50 50 rfl
  have h4 := C9_inst_density_fatal.2.2.2.2.1 0 (by omega)
  exact ⟨h1, h2, h3.1 ▸ rfl, h3.2.1, h3.2.2, h4⟩

/-! ## C10: persistent mode is unreachable -/

/-- The persistent-mode flag: `static u8 is_persistent;` is
zero-initialized, and no statement in the runtime assigns to it. -/
def is_persistent : Nat := 0

/-- The flag as the Boolean condition the runtime tests. -/
def persistentMode : Bool := is_persistent != 0

/-- WUNTRACED, the report-stops wait mode. -/
def WUNTRACED : Nat := 2

/-- The options argument of the supervisor's main waitpid:
`is_persistent ? WUNTRACED : 0`. -/
def waitOptions (p : Bool) : Nat := if p then WUNTRACED else 0

/-- The condition under which an iteration takes the resume-without-fork
fast path (the SIGCONT branch): the request read succeeded, the
previous child is recorded as stopped, and was_killed is zero. -/
def resumesChild (st : FsState) (r : FsRound) : Bool :=
  (r.readRes == 4) && st.childStopped && (r.wasKilled == 0)

/-- All supervisor states traversed while processing a round list. -/
def fsTrace : FsState → List FsRound → List FsState
  | st, [] => [st]
  | st, r :: rs =>
    st :: (match forkRound st r with
           | .inl st' => fsTrace st' rs
           | .inr _ => [])

/-- If a round reports no stopped child, the successor state has
childStopped false. -/
lemma forkRound_no_stop (st : FsState) (r : FsRound) (st' : FsState)
    (hw : wifstopped r.waitStatus = false)
    (h : forkRound st r = .inl st') : st'.childStopped = false := by
  unfold forkRound forkSpawn forkParentTail at h
  split_ifs at h <;> cases h <;> exact hw

/-- Starting from a state with no stopped child, every traversed state
has no stopped child as long as no wait reports a stop. -/
lemma fsTrace_no_stop :
    ∀ (rounds : List FsRound) (st : FsState), st.childStopped = false →
      (∀ r ∈ rounds, wifstopped r.waitStatus = false) →
      ∀ st' ∈ fsTrace st rounds, st'.childStopped = false := by
  intro rounds
  induction rounds with
  | nil =>
      intro st hst hr st' hmem
      simp [fsTrace] at hmem
      rw [hmem]
      exact hst
  | cons r rs ih =>
      intro st hst hr st' hmem
      unfold fsTrace at hmem
      rcases List.mem_cons.mp hmem with h | h
      · rw [h]; exact hst
      · cases hfr : forkRound st r with
        | inl st1 =>
            rw [hfr] at h
            exact ih st1 (forkRound_no_stop st r st1 (hr r (by simp)) hfr)
              (fun x hx => hr x (by simp [hx])) st' h
        | inr o =>
            rw [hfr] at h
            simp at h

/-- C10: the persistent-mode flag is zero-initialized and never set, so
persistent behaviour is unreachable: under the flag the helper never
zeroes the map and never raises SIGSTOP, it returns true exactly once
then false forever regardless of the budget, the supervisor's waitpid
options never include the report-stops mode, and — since an ordinary
wait then never reports a stopped child — no reachable supervisor state
has a stopped child, so the resume-without-fork fast path is never
taken. -/
theorem C10_persistent_mode_unreachable :
    is_persistent = 0
    ∧ persistentMode = false
    ∧ (∀ (k : Nat) (st : PLState),
        (__afl_persistent_loop persistentMode k st).didMemset = false
        ∧ (__afl_persistent_loop persistentMode k st).didRaise = false)
    ∧ (∀ (k : Nat) (st : PLState), st.firstPass = true →
        (plRun persistentMode k st 0).ret = true
        ∧ ∀ n, 1 ≤ n → (plRun persistentMode k st n).ret = false)
    ∧ waitOptions persistentMode = 0
    ∧ (∀ (rounds : List FsRound),
        (∀ r ∈ rounds, wifstopped r.waitStatus = false) →
        ∀ st' ∈ fsTrace fsInit rounds,
          st'.childStopped = false ∧ ∀ r, resumesChild st' r = false) := by
  have hpm : persistentMode = false := rfl
  refine ⟨rfl, hpm, ?_, ?_, rfl, ?_⟩
  · intro k st
    rw [hpm]
    unfold __afl_persistent_loop
    by_cases hfp : st.firstPass = true
    · rw [hfp]; simp
    · simp at hfp
      rw [hfp]; simp
  · intro k st hfp
    rw [hpm]
    constructor
    · have h := (plRun_nonpersistent k st hfp 0).2
      simpa using h
    · intro n hn
      have h := (plRun_nonpersistent k st hfp n).2
      rw [h]
      simp [show n ≠ 0 from by omega]
  · intro rounds hr st' hmem
    have hcs := fsTrace_no_stop rounds fsInit rfl hr st' hmem
    refine ⟨hcs, fun r => ?_⟩
    unfold resumesChild
    rw [hcs]
    simp

/-- A round whose wait status is a normal exit. -/
def fsRoundExitOk : FsRound := ⟨4, 0, 0, 7, 4, 7, 0, 4⟩

/-- Witness for C10 at concrete inputs. -/
theorem C10_persistent_mode_unreachable_witness :
    (plRun persistentMode 9 plSt0 0).ret = true
    ∧ (plRun persistentMode 9 plSt0 2).ret = false
    ∧ ∀ st' ∈ fsTrace fsInit [fsRoundExitOk], st'.childStopped = false := by
  have h1 := C10_persistent_mode_unreachable.2.2.2.1 9 plSt0 rfl
  have h2 := C10_persistent_mode_unreachable.2.2.2.2.2 [fsRoundExitOk]
    (by intro r hx; simp at hx; rw [hx]; rfl)
  exact ⟨h1.1, h1.2 2 (by omega), fun st' hm => (h2 st' hm).1⟩
